import Mathlib

/-!
Verification development for the icon-detection subsystem of
Vision-Based-Desktop-Automation (src/icon_detector.py).

The Python code is shallowly embedded: pure helper functions become Lean
functions over `List Char`, `ℕ`, `ℤ` and `ℚ`; external collaborators
(the correlation surface produced by cv2.matchTemplate, the OCR token list
produced by pytesseract, the filesystem) are passed in as explicit
parameters.  Python `int()` truncation, `//` floor division, `str.strip`,
`str.lower`, `str.find`, `str.startswith` and `str.isalnum` are modelled
character-exactly for the ASCII range the program works with.
-/

/-- Python `str.strip()` on a character list: drop whitespace on both ends. -/
def pyStripList (l : List Char) : List Char :=
  ((l.dropWhile Char.isWhitespace).reverse.dropWhile Char.isWhitespace).reverse

/-- Python `str.lower()` on a character list (ASCII case mapping). -/
def pyLowerList (l : List Char) : List Char :=
  l.map Char.toLower

/-- The normalisation `text.strip().lower()` applied at the top of
`_calculate_similarity_to_notepad`. -/
def pyNormalize (s : String) : List Char :=
  pyLowerList (pyStripList s.toList)

/-- The fixed target label "notepad" as a character list. -/
def notepadChars : List Char :=
  ['n', 'o', 't', 'e', 'p', 'a', 'd']

/-- Python `haystack.find(pat)`: index of the first occurrence of `pat`,
`none` when there is no occurrence (Python returns -1 then). -/
def pyFind (pat : List Char) : List Char → Option ℕ
  | [] => if pat.isEmpty then some 0 else none
  | c :: rest =>
      if pat.isPrefixOf (c :: rest) then some 0
      else (pyFind pat rest).map fun i => i + 1

/-- The containment tiers of `_calculate_similarity_to_notepad`
(lines 204-223): word-boundary containment scores 0.5, plain substring
containment 0.2, no occurrence 0.0. -/
def containmentScore (tl : List Char) : ℚ :=
  match pyFind notepadChars tl with
  | some idx =>
      if (idx = 0 ∨ (tl.getD (idx - 1) ' ').isAlphanum = false) ∧
         (idx + notepadChars.length ≥ tl.length ∨
          (tl.getD (idx + notepadChars.length) ' ').isAlphanum = false) then 1/2
      else 1/5
  | none => 0

/-- Embedding of `IconDetector._calculate_similarity_to_notepad`.
Exact case-insensitive match scores 1.0; a token that starts with
"notepad", is longer, and whose extra characters contain an alphanumeric
character scores 0.1; otherwise the containment tiers apply. -/
def calculateSimilarityToNotepad (text : String) : ℚ :=
  let textLower := pyNormalize text
  if textLower = notepadChars then 1
  else if notepadChars.isPrefixOf textLower ∧
          textLower.length > notepadChars.length then
    let extraChars := textLower.drop notepadChars.length
    if pyStripList extraChars ≠ [] ∧ extraChars.any Char.isAlphanum then 1/10
    else containmentScore textLower
  else containmentScore textLower

/-- Embedding of `IconDetector.validate_icon_detection`: the coordinates
must be present, the confidence at least the configured threshold, and the
coordinates inside the fixed 1920x1080 bounds. -/
def validate_icon_detection (threshold : ℚ) (x y : Option ℤ)
    (confidence : ℚ) : Bool :=
  match x, y with
  | some xv, some yv =>
      if confidence < threshold then false
      else if xv < 0 ∨ xv > 1920 ∨ yv < 0 ∨ yv > 1080 then false
      else true
  | _, _ => false

/-- Python `max(..., key=k)` keeps the current element unless the next one
has a strictly greater key, so the first maximal element wins ties.  The
same update rule implements the `if max_val > best_confidence` tracking in
`_detect_with_template_matching`. -/
def keepMax {α : Type} (key : α → ℚ) (b x : α) : α :=
  if key x > key b then x else b

/-- Running maximum of `key` over a list, started at `a`. -/
def maxKeyFrom {α : Type} (key : α → ℚ) (a : ℚ) (l : List α) : ℚ :=
  l.foldl (fun acc x => max acc (key x)) a

theorem maxKeyFrom_cons {α : Type} (key : α → ℚ) (a : ℚ) (x : α)
    (l : List α) : maxKeyFrom key a (x :: l) = maxKeyFrom key (max a (key x)) l :=
  rfl

theorem le_maxKeyFrom {α : Type} (key : α → ℚ) :
    ∀ (l : List α) (a : ℚ), a ≤ maxKeyFrom key a l
  | [], a => le_refl a
  | x :: xs, a =>
      le_trans (le_max_left a (key x)) (le_maxKeyFrom key xs (max a (key x)))

theorem maxKeyFrom_le {α : Type} (key : α → ℚ) :
    ∀ (l : List α) (a b : ℚ), a ≤ b → (∀ x ∈ l, key x ≤ b) →
      maxKeyFrom key a l ≤ b
  | [], _, _, hab, _ => hab
  | x :: xs, a, b, hab, hl =>
      maxKeyFrom_le key xs (max a (key x)) b
        (max_le hab (hl x (List.mem_cons_self x xs)))
        (fun y hy => hl y (List.mem_cons_of_mem x hy))

/-- The strict-greater-than fold keeps exactly the first element attaining
the overall maximum key (the initial element included). -/
theorem foldl_keepMax_eq_find? {α : Type} (key : α → ℚ) :
    ∀ (l : List α) (c : α),
      (c :: l).find? (fun x => decide (key x = maxKeyFrom key (key c) l)) =
        some (l.foldl (keepMax key) c)
  | [], c => by
      simp [maxKeyFrom, List.find?]
  | x :: xs, c => by
      by_cases h : key x > key c
      · have hmax : max (key c) (key x) = key x := max_eq_right (le_of_lt h)
        have hbv : maxKeyFrom key (key c) (x :: xs) = maxKeyFrom key (key x) xs := by
          rw [maxKeyFrom_cons, hmax]
        have hne : ¬ (key c = maxKeyFrom key (key c) (x :: xs)) := by
          rw [hbv]
          have h2 := le_maxKeyFrom key xs (key x)
          intro hc
          linarith
        have hfold : (x :: xs).foldl (keepMax key) c = xs.foldl (keepMax key) x := by
          simp [List.foldl_cons, keepMax, h]
        rw [hfold, List.find?_cons_of_neg _ (by simpa using hne)]
        simp only [hbv]
        exact foldl_keepMax_eq_find? key xs x
      · have hxc : key x ≤ key c := le_of_not_lt h
        have hmax : max (key c) (key x) = key c := max_eq_left hxc
        have hbv : maxKeyFrom key (key c) (x :: xs) = maxKeyFrom key (key c) xs := by
          rw [maxKeyFrom_cons, hmax]
        have hfold : (x :: xs).foldl (keepMax key) c = xs.foldl (keepMax key) c := by
          simp [List.foldl_cons, keepMax, h]
        rw [hfold]
        have ihc := foldl_keepMax_eq_find? key xs c
        by_cases hc : key c = maxKeyFrom key (key c) xs
        · rw [List.find?_cons_of_pos _ (by simpa using hc)] at ihc
          rw [List.find?_cons_of_pos _ (by simpa [hbv] using hc)]
          exact ihc
        · have hcx : ¬ (key x = maxKeyFrom key (key c) xs) := by
            have h2 := le_maxKeyFrom key xs (key c)
            intro hx
            apply hc
            linarith
          rw [List.find?_cons_of_neg _ (by simpa using hc)] at ihc
          rw [List.find?_cons_of_neg _ (by simpa [hbv] using hc),
              List.find?_cons_of_neg _ (by simpa [hbv] using hcx)]
          simp only [hbv]
          exact ihc

/-- Result of cv2.minMaxLoc on one correlation surface: the maximum value
of the surface and the location attaining it.  The surface itself is
produced by the external cv2.matchTemplate call, so it enters the
embedding as an oracle indexed by the scale factor. -/
structure ScaleMatch where
  maxVal : ℚ
  maxLoc : ℕ × ℕ

/-- Python `int(dimension * scale)` used to size the resized template;
both factors are nonnegative, so truncation is the floor. -/
def templateDim (d : ℕ) (scale : ℚ) : ℕ :=
  (Int.floor ((d : ℚ) * scale)).toNat

/-- Loop state of `_detect_with_template_matching`: `best_match`,
`best_confidence` (initialised to 0.0) and `best_scale` (initialised
to 1.0). -/
structure TMState where
  bestMatch : Option (ℕ × ℕ)
  bestConfidence : ℚ
  bestScale : ℚ

/-- The state installed when a scale improves on the running best. -/
def tmCandidate (m : ℚ → ScaleMatch) (scale : ℚ) : TMState :=
  ⟨some (m scale).maxLoc, (m scale).maxVal, scale⟩

/-- One iteration of the scale loop of `_detect_with_template_matching`:
skip the scale when the resized template exceeds the frame, otherwise
update the best triple on strictly greater correlation. -/
def tmStep (fw fh tw th : ℕ) (m : ℚ → ScaleMatch) (st : TMState)
    (scale : ℚ) : TMState :=
  if templateDim tw scale > fw ∨ templateDim th scale > fh then st
  else if (m scale).maxVal > st.bestConfidence then tmCandidate m scale
  else st

/-- The fixed multi-scale sweep `scales = [0.8, 1.0, 1.2, 1.5]`. -/
def tmScales : List ℚ :=
  [8/10, 1, 12/10, 15/10]

/-- Embedding of `_detect_with_template_matching` for a frame of size
`fw × fh` and a grayscale template of size `tw × th`. -/
def detectWithTemplateMatching (fw fh tw th : ℕ) (m : ℚ → ScaleMatch)
    (threshold : ℚ) : Option ℤ × Option ℤ × ℚ :=
  let st := tmScales.foldl (tmStep fw fh tw th m) ⟨none, 0, 1⟩
  match st.bestMatch with
  | some loc =>
      if st.bestConfidence ≥ threshold then
        (some ((loc.1 + templateDim tw st.bestScale / 2 : ℕ) : ℤ),
         some ((loc.2 + templateDim th st.bestScale / 2 : ℕ) : ℤ),
         st.bestConfidence)
      else (none, none, st.bestConfidence)
  | none => (none, none, st.bestConfidence)

/-- The scales of the sweep whose resized template fits in the frame. -/
def tmFittingScales (fw fh tw th : ℕ) : List ℚ :=
  tmScales.filter fun s => decide (templateDim tw s ≤ fw ∧ templateDim th s ≤ fh)

/-- The best correlation value over the fitting scales, tracked from the
initial 0.0 of the loop. -/
def tmBestValue (fw fh tw th : ℕ) (m : ℚ → ScaleMatch) : ℚ :=
  maxKeyFrom (fun s => (m s).maxVal) 0 (tmFittingScales fw fh tw th)

/-- The template matcher as the claim states it: sweep the ordered scale
list skipping scales whose resized template exceeds the frame, take the
best surface maximum with the first-found scale winning ties, and when the
best value reaches the threshold anchor at the matched location plus half
the resized dimensions (integer division); otherwise report no anchor but
keep the sub-threshold best value as the confidence. -/
def templateMatcherSpec (fw fh tw th : ℕ) (m : ℚ → ScaleMatch)
    (threshold : ℚ) : Option ℤ × Option ℤ × ℚ :=
  let bv := tmBestValue fw fh tw th m
  if bv ≥ threshold then
    match (tmFittingScales fw fh tw th).find?
        (fun s => decide ((m s).maxVal = bv)) with
    | some s =>
        (some (((m s).maxLoc.1 + templateDim tw s / 2 : ℕ) : ℤ),
         some (((m s).maxLoc.2 + templateDim th s / 2 : ℕ) : ℤ), bv)
    | none => (none, none, bv)
  else (none, none, bv)

/-- Skipping a scale inside the loop is the same as filtering the scale
list first; the surviving updates are the strict-improvement rule. -/
theorem tmFold_eq_keepMax (fw fh tw th : ℕ) (m : ℚ → ScaleMatch) :
    ∀ (l : List ℚ) (st : TMState),
      l.foldl (tmStep fw fh tw th m) st =
        ((l.filter fun s =>
            decide (templateDim tw s ≤ fw ∧ templateDim th s ≤ fh)).map
          (tmCandidate m)).foldl (keepMax TMState.bestConfidence) st
  | [], st => rfl
  | s :: l, st => by
      by_cases h : templateDim tw s > fw ∨ templateDim th s > fh
      · have hfit : ¬ (templateDim tw s ≤ fw ∧ templateDim th s ≤ fh) := by
          rcases h with h | h
          · exact fun hc => absurd hc.1 (not_le.mpr h)
          · exact fun hc => absurd hc.2 (not_le.mpr h)
        have hstep : tmStep fw fh tw th m st s = st := if_pos h
        rw [List.foldl_cons, hstep, List.filter_cons_of_neg (by simpa using hfit)]
        exact tmFold_eq_keepMax fw fh tw th m l st
      · have hfit : templateDim tw s ≤ fw ∧ templateDim th s ≤ fh := by
          constructor
          · exact le_of_not_lt fun hc => h (Or.inl hc)
          · exact le_of_not_lt fun hc => h (Or.inr hc)
        have hstep : tmStep fw fh tw th m st s =
            keepMax TMState.bestConfidence st (tmCandidate m s) := by
          simp [tmStep, keepMax, tmCandidate, if_neg h]
        rw [List.foldl_cons, hstep, List.filter_cons_of_pos (by simpa using hfit),
            List.map_cons, List.foldl_cons]
        exact tmFold_eq_keepMax fw fh tw th m l
          (keepMax TMState.bestConfidence st (tmCandidate m s))

/-- The running maximum over installed states is the running maximum of
the surface maxima over the fitting scales. -/
theorem tmBestValue_eq (fw fh tw th : ℕ) (m : ℚ → ScaleMatch) :
    maxKeyFrom TMState.bestConfidence 0
        ((tmFittingScales fw fh tw th).map (tmCandidate m)) =
      tmBestValue fw fh tw th m := by
  simp [maxKeyFrom, tmBestValue, List.foldl_map, tmCandidate]

/-- C3 (confirmed, for the positive thresholds the detector is configured
with): the template matcher sweeps the ordered scale list 0.8, 1.0, 1.2,
1.5, skips a scale when the resized template's width or height exceeds the
frame's, tracks the best surface maximum with strict greater-than so the
first-found scale wins ties, and returns the anchor at matched-location
plus half the resized dimensions (integer division) with confidence the
best value when it reaches the threshold, otherwise no anchor with the
sub-threshold best value as the confidence. -/
theorem template_matcher_first_max_sweep (fw fh tw th : ℕ)
    (m : ℚ → ScaleMatch) (τ : ℚ) (hτ : 0 < τ) :
    detectWithTemplateMatching fw fh tw th m τ =
      templateMatcherSpec fw fh tw th m τ := by
  have hbridge : tmScales.foldl (tmStep fw fh tw th m) ⟨none, 0, 1⟩ =
      ((tmFittingScales fw fh tw th).map (tmCandidate m)).foldl
        (keepMax TMState.bestConfidence) ⟨none, 0, 1⟩ :=
    tmFold_eq_keepMax fw fh tw th m tmScales ⟨none, 0, 1⟩
  have hbv0 : (0 : ℚ) ≤ tmBestValue fw fh tw th m := by
    have h := le_maxKeyFrom (fun s => (m s).maxVal) (tmFittingScales fw fh tw th) 0
    simpa [tmBestValue] using h
  have hfind := foldl_keepMax_eq_find? TMState.bestConfidence
      ((tmFittingScales fw fh tw th).map (tmCandidate m)) ⟨none, 0, 1⟩
  rw [show TMState.bestConfidence (⟨none, 0, 1⟩ : TMState) = 0 from rfl,
      tmBestValue_eq, ← hbridge] at hfind
  by_cases h0 : (0 : ℚ) = tmBestValue fw fh tw th m
  · rw [List.find?_cons_of_pos _ (by simpa using h0)] at hfind
    have hst : tmScales.foldl (tmStep fw fh tw th m) ⟨none, 0, 1⟩ =
        ⟨none, 0, 1⟩ := (Option.some_injective _ hfind).symm
    simp only [detectWithTemplateMatching, templateMatcherSpec]
    rw [hst]
    simp [← h0, hτ.not_le]
  · rw [List.find?_cons_of_neg _ (by simpa using h0)] at hfind
    rw [List.find?_map] at hfind
    cases hfs : (tmFittingScales fw fh tw th).find?
        ((fun x => decide (x.bestConfidence = tmBestValue fw fh tw th m)) ∘
          tmCandidate m) with
    | none => rw [hfs] at hfind; simp at hfind
    | some s =>
        rw [hfs] at hfind
        simp only [Option.map_some'] at hfind
        have hst : tmScales.foldl (tmStep fw fh tw th m) ⟨none, 0, 1⟩ =
            tmCandidate m s := (Option.some_injective _ hfind).symm
        have hval : (m s).maxVal = tmBestValue fw fh tw th m := by
          have h := List.find?_some hfs
          simpa [Function.comp, tmCandidate] using h
        have hfs' : (tmFittingScales fw fh tw th).find?
            (fun s => decide ((m s).maxVal = tmBestValue fw fh tw th m)) =
              some s := by
          have h := hfs
          simpa [Function.comp, tmCandidate] using h
        simp only [detectWithTemplateMatching, templateMatcherSpec]
        rw [hst]
        by_cases hthr : tmBestValue fw fh tw th m ≥ τ
        · simp [tmCandidate, hval, hthr, hfs']
        · simp [tmCandidate, hval, hthr, hfs']

/-- Python `int()` truncation toward zero on a rational. -/
def pyTrunc (q : ℚ) : ℤ :=
  if 0 ≤ q then Int.floor q else Int.ceil q

/-- Python `s.strip()` as a `String` operation. -/
def pyStripString (s : String) : String :=
  (pyStripList s.toList).asString

/-- One OCR token as delivered by pytesseract.image_to_data: recognized
string, bounding box and raw recognition confidence. -/
structure OCRToken where
  text : String
  left : ℕ
  top : ℕ
  width : ℕ
  height : ℕ
  conf : ℚ

/-- One entry of the `candidates` list of `_detect_with_ocr`. -/
structure Candidate where
  sourceText : String
  x : ℕ
  y : ℤ
  similarity : ℚ
  ocrConf : ℚ
  combinedScore : ℚ

/-- Candidate built from one token (lines 270-292 of the source): anchor X
is the horizontal centre of the bounding box, anchor Y the bounding-box
top minus half of `max(1.5 * height, 40)`, and the combined score weights
the similarity with the OCR confidence 0.7 to 0.3. -/
def mkCandidate (t : OCRToken) : Candidate :=
  let textClean := pyStripString t.text
  let similarity := calculateSimilarityToNotepad textClean
  ⟨textClean,
   t.left + t.width / 2,
   pyTrunc ((t.top : ℚ) - max ((t.height : ℚ) * (3/2)) 40 / 2),
   similarity,
   t.conf,
   similarity * (7/10) + (t.conf / 100) * (3/10)⟩

/-- The candidate list built by the token loop of `_detect_with_ocr`:
tokens that are empty after stripping are skipped, and only tokens with
positive similarity become candidates. -/
def ocrCandidates (tokens : List OCRToken) : List Candidate :=
  tokens.filterMap fun t =>
    if pyStripString t.text = "" then none
    else if (mkCandidate t).similarity > 0 then some (mkCandidate t)
    else none

/-- Log events emitted on the three exit paths of `_detect_with_ocr`:
logger.error when Tesseract is missing, logger.warning when no text
containing the target was found, logger.info on a best match. -/
inductive OCRLogEvent : Type
  | errorTesseractNotFound : OCRLogEvent
  | warnNoMatchingText : OCRLogEvent
  | infoBestMatch : OCRLogEvent
deriving DecidableEq

/-- Embedding of `_detect_with_ocr`.  `backendAvailable` models whether
`pytesseract.get_tesseract_version()` succeeds, `tokens` the list the OCR
engine returns for the frame.  The first component is the returned
`(x, y, confidence)` triple; the second records the log event of the exit
path taken.  Python `max(candidates, key=...)` returns the first
encountered maximal element, which is the `keepMax` fold. -/
def detectWithOCR (backendAvailable : Bool) (tokens : List OCRToken) :
    (Option ℤ × Option ℤ × ℚ) × OCRLogEvent :=
  if backendAvailable = false then
    ((none, none, 0), OCRLogEvent.errorTesseractNotFound)
  else
    match ocrCandidates tokens with
    | [] => ((none, none, 0), OCRLogEvent.warnNoMatchingText)
    | c :: cs =>
        let best := cs.foldl (keepMax Candidate.combinedScore) c
        ((some (best.x : ℤ), some best.y, min best.combinedScore (9/10)),
         OCRLogEvent.infoBestMatch)

/-- The candidate ranker as the claim states it: select the candidate with
the maximum combined score, ties broken by first-encountered order, and
report its combined score capped at 0.9. -/
def candidateRankerSpec (tokens : List OCRToken) : Option ℤ × Option ℤ × ℚ :=
  match ocrCandidates tokens with
  | [] => (none, none, 0)
  | c :: cs =>
      match (c :: cs).find? (fun d =>
          decide (d.combinedScore =
            maxKeyFrom Candidate.combinedScore c.combinedScore cs)) with
      | some best => (some (best.x : ℤ), some best.y,
                      min best.combinedScore (9/10))
      | none => (none, none, 0)

/-- C4 (confirmed): every OCR token with positive similarity yields a
candidate whose anchor X is the horizontal centre of the bounding box,
whose anchor Y is the top minus half of `max(1.5 * height, 40)`, and whose
combined score weights similarity and raw confidence 0.7 to 0.3; the
returned result is the candidate of maximum combined score with ties
broken by first-encountered order, reported with the combined score capped
at 0.9. -/
theorem candidate_ranker_selects_first_max (tokens : List OCRToken) :
    (detectWithOCR true tokens).1 = candidateRankerSpec tokens ∧
    (∀ c ∈ ocrCandidates tokens, 0 < c.similarity ∧ ∃ t ∈ tokens,
      c.x = t.left + t.width / 2 ∧
      c.y = pyTrunc ((t.top : ℚ) - max ((t.height : ℚ) * (3/2)) 40 / 2) ∧
      c.similarity = calculateSimilarityToNotepad (pyStripString t.text) ∧
      c.combinedScore = c.similarity * (7/10) + (t.conf / 100) * (3/10)) := by
  constructor
  · simp only [detectWithOCR, candidateRankerSpec]
    cases hc : ocrCandidates tokens with
    | nil => simp
    | cons c cs =>
        have hfind := foldl_keepMax_eq_find? Candidate.combinedScore cs c
        simp [hfind]
  · intro c hc
    rw [ocrCandidates, List.mem_filterMap] at hc
    obtain ⟨t, ht, hft⟩ := hc
    by_cases h1 : pyStripString t.text = ""
    · simp [h1] at hft
    · by_cases h2 : (mkCandidate t).similarity > 0
      · simp [h1, h2] at hft
        subst hft
        exact ⟨h2, t, ht, rfl, rfl, rfl, rfl⟩
      · simp [h1, h2] at hft

/-- The `(x, y, confidence)` triple returned by detection calls. -/
abbrev DetectResult := Option ℤ × Option ℤ × ℚ

/-- The success test of an attempt:
`x is not None and y is not None`. -/
def detectSuccess (r : DetectResult) : Bool :=
  r.1.isSome && r.2.1.isSome

/-- The loop of `detect_with_retry`, unrolled over the remaining attempt
count.  `attempt` is the 0-based index of the current attempt and the
second component counts executed sleeps; a sleep happens after a failed
attempt exactly when `attempt < max_retries - 1`. -/
def retryLoop (res : ℕ → DetectResult) (maxRetries : ℕ) :
    ℕ → ℕ → DetectResult × ℕ
  | _, 0 => ((none, none, 0), 0)
  | attempt, remaining + 1 =>
      if detectSuccess (res attempt) then (res attempt, 0)
      else
        let rest := retryLoop res maxRetries (attempt + 1) remaining
        if attempt < maxRetries - 1 then (rest.1, rest.2 + 1)
        else (rest.1, rest.2)

/-- Embedding of `detect_with_retry`: run the loop over
`range(max_retries)` starting at attempt 0; returns the detection result
together with the number of sleeps executed.  `res k` is the outcome of
the k-th `detect_icon_position` call. -/
def detect_with_retry (res : ℕ → DetectResult) (maxRetries : ℕ) :
    DetectResult × ℕ :=
  retryLoop res maxRetries 0 maxRetries

/-- State the constructor leaves behind: the grayscale template with its
width and height, or nothing. -/
structure IconDetectorState where
  templateGray : Option (ℕ × ℕ)

/-- Embedding of `IconDetector.__init__` together with `_load_template`.
`pathExists` models `self.template_path.exists()`, `imreadResult` the
return of `cv2.imread` (`none` when the file exists but cannot be
decoded, otherwise the image, kept abstract as its dimensions).  A
missing path is non-fatal and leaves no template; a present but
undecodable file raises ValueError out of the constructor. -/
def initIconDetector (pathExists : Bool) (imreadResult : Option (ℕ × ℕ)) :
    Except String IconDetectorState :=
  if pathExists then
    match imreadResult with
    | none => Except.error ("Could not load template")
    | some dims => Except.ok ⟨some dims⟩
  else Except.ok ⟨none⟩

/-- Embedding of `detect_icon_position`: template matching first when a
template is loaded, accepted at the confidence threshold, otherwise the
OCR fallback when enabled; the final failure return carries the last
assigned confidence variable. -/
def detect_icon_position (st : IconDetectorState) (threshold : ℚ)
    (fw fh : ℕ) (m : ℚ → ScaleMatch) (backendAvailable : Bool)
    (tokens : List OCRToken) (useOcrFallback : Bool) : DetectResult :=
  match st.templateGray with
  | some dims =>
      let t := detectWithTemplateMatching fw fh dims.1 dims.2 m threshold
      if t.2.2 ≥ threshold then t
      else if useOcrFallback then
        let r := (detectWithOCR backendAvailable tokens).1
        if r.1.isSome && r.2.1.isSome then r else (none, none, r.2.2)
      else (none, none, t.2.2)
  | none =>
      if useOcrFallback then
        let r := (detectWithOCR backendAvailable tokens).1
        if r.1.isSome && r.2.1.isSome then r else (none, none, r.2.2)
      else (none, none, 0)

/-- Image operations appearing in the detector and in the spec's
preprocessing sequence, named after the library calls they stand for. -/
inductive ImageOp : Type
  | cvtColorBGR2RGB : ImageOp
  | cvtColorBGR2GRAY : ImageOp
  | fastNlMeansDenoise : ImageOp
  | claheEqualize : ImageOp
  | otsuThreshold : ImageOp
deriving DecidableEq

/-- The image-operation sequence `_detect_with_ocr` applies to the frame
before calling pytesseract.image_to_data (source lines 248-257): a single
BGR-to-RGB colour conversion, nothing else. -/
def ocrFramePipeline : List ImageOp :=
  [ImageOp.cvtColorBGR2RGB]

/-- The page-segmentation mode the pytesseract call is configured with:
`--psm 6`, a uniform block of text. -/
def ocrPsmMode : ℕ := 6

/-- The preprocessing sequence the spec's section 4.3 words require:
grayscale conversion, then edge-preserving denoise, then adaptive
histogram equalization, then automatic-threshold binarization.  Stated
for comparison against `ocrFramePipeline`. -/
def specRequiredPipeline : List ImageOp :=
  [ImageOp.cvtColorBGR2GRAY, ImageOp.fastNlMeansDenoise,
   ImageOp.claheEqualize, ImageOp.otsuThreshold]

/-- When the first success happens at index `k`, the loop short-circuits
there: it returns `res k` and has slept once per failed attempt before
`k`. -/
theorem retryLoop_first_success (res : ℕ → DetectResult) (maxRetries k : ℕ)
    (hk : k < maxRetries) (hs : detectSuccess (res k) = true)
    (hf : ∀ j, j < k → detectSuccess (res j) = false) :
    ∀ (remaining attempt : ℕ), attempt + remaining = maxRetries →
      attempt ≤ k →
      retryLoop res maxRetries attempt remaining = (res k, k - attempt) := by
  intro remaining
  induction remaining with
  | zero => intro attempt h0 hak; omega
  | succ n ih =>
      intro attempt h0 hak
      by_cases heq : attempt = k
      · subst heq
        simp [retryLoop, hs]
      · have hlt : attempt < k := lt_of_le_of_ne hak heq
        have hfail := hf attempt hlt
        have hsleep : attempt < maxRetries - 1 := by omega
        have hrest := ih (attempt + 1) (by omega) (by omega)
        simp [retryLoop, hfail, hsleep, hrest]
        omega

/-- When every attempt fails, the loop exhausts all attempts, returns the
null result, and has slept after every attempt but the last. -/
theorem retryLoop_all_fail (res : ℕ → DetectResult) (maxRetries : ℕ)
    (hf : ∀ j, j < maxRetries → detectSuccess (res j) = false) :
    ∀ (remaining attempt : ℕ), attempt + remaining = maxRetries →
      retryLoop res maxRetries attempt remaining =
        ((none, none, 0), maxRetries - 1 - attempt) := by
  intro remaining
  induction remaining with
  | zero =>
      intro attempt h0
      simp only [retryLoop, Prod.mk.injEq]
      exact ⟨trivial, by omega⟩
  | succ n ih =>
      intro attempt h0
      have hfail := hf attempt (by omega)
      have hrest := ih (attempt + 1) (by omega)
      by_cases hsleep : attempt < maxRetries - 1
      · simp [retryLoop, hfail, hsleep, hrest]
        omega
      · simp [retryLoop, hfail, hsleep, hrest]
        omega

/-- The containment tiers take only the values 0, 0.5 and 0.2. -/
theorem containmentScore_cases (tl : List Char) :
    containmentScore tl = 0 ∨ containmentScore tl = 1/2 ∨
      containmentScore tl = 1/5 := by
  unfold containmentScore
  cases pyFind notepadChars tl with
  | none => exact Or.inl rfl
  | some idx =>
      dsimp only
      split_ifs with h
      · exact Or.inr (Or.inl rfl)
      · exact Or.inr (Or.inr rfl)

/-- The similarity scorer takes only the five fixed tier values. -/
theorem similarity_cases (text : String) :
    calculateSimilarityToNotepad text = 0 ∨
    calculateSimilarityToNotepad text = 1/10 ∨
    calculateSimilarityToNotepad text = 1/5 ∨
    calculateSimilarityToNotepad text = 1/2 ∨
    calculateSimilarityToNotepad text = 1 := by
  unfold calculateSimilarityToNotepad
  dsimp only
  split_ifs with h1 h2 h3
  · exact Or.inr (Or.inr (Or.inr (Or.inr rfl)))
  · exact Or.inr (Or.inl rfl)
  · rcases containmentScore_cases (pyNormalize text) with h | h | h
    · exact Or.inl h
    · exact Or.inr (Or.inr (Or.inr (Or.inl h)))
    · exact Or.inr (Or.inr (Or.inl h))
  · rcases containmentScore_cases (pyNormalize text) with h | h | h
    · exact Or.inl h
    · exact Or.inr (Or.inr (Or.inr (Or.inl h)))
    · exact Or.inr (Or.inr (Or.inl h))

theorem similarity_nonneg (text : String) :
    0 ≤ calculateSimilarityToNotepad text := by
  rcases similarity_cases text with h | h | h | h | h <;> rw [h] <;> norm_num

theorem similarity_le_one (text : String) :
    calculateSimilarityToNotepad text ≤ 1 := by
  rcases similarity_cases text with h | h | h | h | h <;> rw [h] <;> norm_num

/-- A pattern that is a nonempty prefix is found at index 0. -/
theorem pyFind_of_isPrefixOf (pat l : List Char)
    (hp : pat.isPrefixOf l = true) (hne : l ≠ []) : pyFind pat l = some 0 := by
  cases l with
  | nil => exact absurd rfl hne
  | cons c rest => simp [pyFind, hp]

/-- The containment score is zero exactly when the target does not occur. -/
theorem containmentScore_eq_zero_iff (tl : List Char) :
    containmentScore tl = 0 ↔ pyFind notepadChars tl = none := by
  unfold containmentScore
  cases pyFind notepadChars tl with
  | none => simp
  | some idx =>
      dsimp only
      constructor
      · intro hc
        exfalso
        revert hc
        split_ifs <;> norm_num
      · intro hc
        exact absurd hc (Option.some_ne_none idx)

/-- When stripping leaves nothing, every character was whitespace. -/
theorem all_whitespace_of_pyStripList_eq_nil (l : List Char)
    (h : pyStripList l = []) : ∀ c ∈ l, c.isWhitespace = true := by
  unfold pyStripList at h
  rw [List.reverse_eq_nil_iff, List.dropWhile_eq_nil_iff] at h
  intro c hc
  rw [← List.takeWhile_append_dropWhile (p := Char.isWhitespace) (l := l)]
    at hc
  rcases List.mem_append.mp hc with hc | hc
  · exact List.mem_takeWhile_imp hc
  · exact h c (List.mem_reverse.mpr hc)

/-- An alphanumeric character is not whitespace. -/
theorem isAlphanum_not_whitespace (c : Char) (h : c.isAlphanum = true) :
    c.isWhitespace = false := by
  by_contra hw
  rw [Bool.not_eq_false, Char.isWhitespace] at hw
  simp only [Bool.or_eq_true, decide_eq_true_eq] at hw
  rcases hw with ((hc | hc) | hc) | hc <;> subst hc <;> exact absurd h (by decide)

/-- A list holding an alphanumeric character does not strip to nothing. -/
theorem pyStripList_ne_nil_of_alnum (l : List Char) (c : Char) (hc : c ∈ l)
    (ha : c.isAlphanum = true) : pyStripList l ≠ [] := by
  intro h
  have hw := all_whitespace_of_pyStripList_eq_nil l h c hc
  rw [isAlphanum_not_whitespace c ha] at hw
  cases hw

/-- The default-valued index read lands in the dropped suffix. -/
theorem getD_mem_drop (l : List Char) (n : ℕ) (hn : n < l.length)
    (d : Char) : l.getD n d ∈ l.drop n := by
  rw [List.getD_eq_getElem?_getD, List.getElem?_eq_getElem hn]
  rw [List.drop_eq_getElem_cons hn]
  exact List.mem_cons_self _ _

/-- The tracked best confidence never drops below its starting value's
sign: starting from a nonnegative value it stays nonnegative, because
updates only happen on strict improvement. -/
theorem tmFold_conf_nonneg (fw fh tw th : ℕ) (m : ℚ → ScaleMatch) :
    ∀ (l : List ℚ) (st : TMState), 0 ≤ st.bestConfidence →
      0 ≤ (l.foldl (tmStep fw fh tw th m) st).bestConfidence
  | [], _, h => h
  | s :: l, st, h => by
      rw [List.foldl_cons]
      apply tmFold_conf_nonneg fw fh tw th m l
      unfold tmStep
      split_ifs with h1 h2
      · exact h
      · exact le_of_lt (lt_of_le_of_lt h h2)
      · exact h

/-- When every surface maximum is at most 1, the tracked best confidence
stays at most 1. -/
theorem tmFold_conf_le_one (fw fh tw th : ℕ) (m : ℚ → ScaleMatch)
    (hm : ∀ s, (m s).maxVal ≤ 1) :
    ∀ (l : List ℚ) (st : TMState), st.bestConfidence ≤ 1 →
      (l.foldl (tmStep fw fh tw th m) st).bestConfidence ≤ 1
  | [], _, h => h
  | s :: l, st, h => by
      rw [List.foldl_cons]
      apply tmFold_conf_le_one fw fh tw th m hm l
      unfold tmStep
      split_ifs with h1 h2
      · exact h
      · exact hm s
      · exact h

/-- The confidence component the template matcher returns is the tracked
best confidence, on every exit path. -/
theorem tm_conf_eq (fw fh tw th : ℕ) (m : ℚ → ScaleMatch) (τ : ℚ) :
    (detectWithTemplateMatching fw fh tw th m τ).2.2 =
      (tmScales.foldl (tmStep fw fh tw th m) ⟨none, 0, 1⟩).bestConfidence := by
  unfold detectWithTemplateMatching
  dsimp only
  cases hb : (tmScales.foldl (tmStep fw fh tw th m) ⟨none, 0, 1⟩).bestMatch with
  | none => rfl
  | some loc => split_ifs <;> rfl

/-- The element selected by the strict-greater fold is in the list. -/
theorem foldl_keepMax_mem {α : Type} (key : α → ℚ) (c : α) (l : List α) :
    l.foldl (keepMax key) c ∈ c :: l :=
  List.mem_of_find?_eq_some (foldl_keepMax_eq_find? key l c)

/-- A token that starts with "notepad", is longer, and carries only
non-alphanumeric extra characters escapes the demotion branch and lands in
the word-boundary containment tier. -/
theorem similarity_prefix_nonalnum_extra (text : String)
    (hp : notepadChars.isPrefixOf (pyNormalize text) = true)
    (hl : (pyNormalize text).length > notepadChars.length)
    (hna : ∀ c ∈ (pyNormalize text).drop notepadChars.length,
      c.isAlphanum = false) :
    calculateSimilarityToNotepad text = 1/2 := by
  have hne : pyNormalize text ≠ notepadChars := by
    intro h
    rw [h] at hl
    omega
  have hnil : pyNormalize text ≠ [] := by
    intro h
    rw [h] at hl
    exact absurd hl (by decide)
  unfold calculateSimilarityToNotepad
  dsimp only
  rw [if_neg hne, if_pos ⟨hp, hl⟩]
  have hnoal : ((pyNormalize text).drop notepadChars.length).any
      Char.isAlphanum = false := by
    rw [List.any_eq_false]
    intro c hc
    rw [hna c hc]
    exact Bool.false_ne_true
  rw [if_neg (fun hcond => absurd (hnoal ▸ hcond.2) Bool.false_ne_true)]
  unfold containmentScore
  rw [pyFind_of_isPrefixOf notepadChars (pyNormalize text) hp hnil]
  dsimp only
  rw [if_pos]
  constructor
  · exact Or.inl rfl
  · refine Or.inr ?_
    exact hna _ (getD_mem_drop (pyNormalize text) notepadChars.length hl ' ')

/-- A token that starts with "notepad", is longer, and carries an
alphanumeric extra character takes the 0.1 demotion branch. -/
theorem similarity_prefix_alnum_extra (text : String)
    (hp : notepadChars.isPrefixOf (pyNormalize text) = true)
    (hl : (pyNormalize text).length > notepadChars.length)
    (c : Char) (hc : c ∈ (pyNormalize text).drop notepadChars.length)
    (ha : c.isAlphanum = true) :
    calculateSimilarityToNotepad text = 1/10 := by
  have hne : pyNormalize text ≠ notepadChars := by
    intro h
    rw [h] at hl
    omega
  unfold calculateSimilarityToNotepad
  dsimp only
  rw [if_neg hne, if_pos ⟨hp, hl⟩,
      if_pos ⟨pyStripList_ne_nil_of_alnum _ c hc ha,
              List.any_eq_true.mpr ⟨c, hc, ha⟩⟩]

/-- The scorer returns zero exactly when the target does not occur in the
normalised token. -/
theorem similarity_eq_zero_iff (text : String) :
    calculateSimilarityToNotepad text = 0 ↔
      pyFind notepadChars (pyNormalize text) = none := by
  unfold calculateSimilarityToNotepad
  dsimp only
  split_ifs with h1 h2 h3
  · rw [h1]
    constructor
    · intro hc
      norm_num at hc
    · intro hc
      rw [pyFind_of_isPrefixOf notepadChars notepadChars (by decide)
        (by decide)] at hc
      cases hc
  · constructor
    · intro hc
      norm_num at hc
    · intro hc
      have hnil : pyNormalize text ≠ [] := by
        intro h
        rw [h] at h2
        exact absurd h2.2 (by decide)
      rw [pyFind_of_isPrefixOf notepadChars (pyNormalize text) h2.1 hnil]
        at hc
      cases hc
  · exact containmentScore_eq_zero_iff (pyNormalize text)
  · exact containmentScore_eq_zero_iff (pyNormalize text)

/-- A constant correlation oracle used to instantiate theorems with
hypotheses at a concrete input. -/
def constSurface : ℚ → ScaleMatch :=
  fun _ => ⟨0, (0, 0)⟩

/-- A concrete token list used to instantiate theorems with hypotheses. -/
def witnessTokens : List OCRToken :=
  [⟨"Notepad", 100, 200, 60, 20, 90⟩]

/-- A concrete underlying detector that fails twice and then succeeds. -/
def flakyDetector : ℕ → DetectResult :=
  fun n => if n < 2 then (none, none, 0) else (some 960, some 540, 8/10)

/-- The similarity field of a built candidate. -/
theorem mkCandidate_similarity (t : OCRToken) :
    (mkCandidate t).similarity =
      calculateSimilarityToNotepad (pyStripString t.text) :=
  rfl

/-- The combined-score field of a built candidate. -/
theorem mkCandidate_combinedScore (t : OCRToken) :
    (mkCandidate t).combinedScore =
      (mkCandidate t).similarity * (7/10) + (t.conf / 100) * (3/10) :=
  rfl

/-- C1 (counterexample): the similarity of "Notepad++" is 0.5, which does
not lie in the open interval (0.8, 1.0) the claim asserts. -/
theorem similarity_notepad_plusplus_not_high :
    calculateSimilarityToNotepad ("Notepad++") = 1/2 ∧
    ¬ ((4 : ℚ)/5 < 1/2 ∧ (1 : ℚ)/2 < 1) :=
  ⟨rfl, by norm_num⟩

/-- C1 (corrected): the scorer uses five fixed tier scores with no
length-ratio scaling: exact case-insensitive match 1.0, extended name with
an alphanumeric extra character 0.1, word-boundary containment 0.5, plain
substring containment 0.2, no occurrence 0.0; in particular
"Notepad" scores 1.0, "Notepad++" 0.5, "MyNotepadTool" 0.2 and
"Calculator" 0.0, and the score is zero exactly when the target does not
occur in the normalised token. -/
theorem similarity_tiers_fixed_scores :
    (calculateSimilarityToNotepad ("Notepad") = 1 ∧
     calculateSimilarityToNotepad ("Notepad++") = 1/2 ∧
     calculateSimilarityToNotepad ("MyNotepadTool") = 1/5 ∧
     calculateSimilarityToNotepad ("Calculator") = 0) ∧
    (∀ text, calculateSimilarityToNotepad text = 0 ∨
      calculateSimilarityToNotepad text = 1/10 ∨
      calculateSimilarityToNotepad text = 1/5 ∨
      calculateSimilarityToNotepad text = 1/2 ∨
      calculateSimilarityToNotepad text = 1) ∧
    (∀ text, pyNormalize text = notepadChars →
      calculateSimilarityToNotepad text = 1) ∧
    (∀ text, calculateSimilarityToNotepad text = 0 ↔
      pyFind notepadChars (pyNormalize text) = none) := by
  refine ⟨⟨rfl, rfl, rfl, rfl⟩, similarity_cases, ?_, similarity_eq_zero_iff⟩
  intro text h
  unfold calculateSimilarityToNotepad
  dsimp only
  rw [if_pos h]

/-- C1 witness: the exact-match tier applied to the concrete token
"NOTEPAD". -/
theorem similarity_tiers_fixed_scores_witness :
    pyNormalize ("NOTEPAD") = notepadChars ∧
    calculateSimilarityToNotepad ("NOTEPAD") = 1 := by
  have h : pyNormalize ("NOTEPAD") = notepadChars := by decide
  exact ⟨h, similarity_tiers_fixed_scores.2.2.1 ("NOTEPAD") h⟩

/-- C2 (confirmed): validation succeeds exactly when both coordinates are
present, the confidence reaches the threshold, and the coordinates lie in
the fixed 1920 by 1080 bounds; on any other input, out-of-bounds included,
it returns false rather than failing. -/
theorem validate_icon_detection_iff (threshold confidence : ℚ)
    (x y : Option ℤ) :
    validate_icon_detection threshold x y confidence = true ↔
      ∃ xv yv, x = some xv ∧ y = some yv ∧ threshold ≤ confidence ∧
        0 ≤ xv ∧ xv ≤ 1920 ∧ 0 ≤ yv ∧ yv ≤ 1080 := by
  cases x with
  | none => simp [validate_icon_detection]
  | some xv =>
      cases y with
      | none => simp [validate_icon_detection]
      | some yv =>
          simp only [validate_icon_detection]
          split_ifs with h1 h2
          · constructor
            · intro hc
              exact hc.elim
            · rintro ⟨xv', yv', hx, hy, hτc, _⟩
              exact absurd hτc (not_le.mpr h1)
          · constructor
            · intro hc
              exact hc.elim
            · rintro ⟨xv', yv', hx, hy, hτc, hx0, hx1, hy0, hy1⟩
              rw [Option.some_inj] at hx hy
              subst hx
              subst hy
              rcases h2 with h | h | h | h
              · exact absurd hx0 (not_le.mpr h)
              · exact absurd hx1 (not_le.mpr h)
              · exact absurd hy0 (not_le.mpr h)
              · exact absurd hy1 (not_le.mpr h)
          · constructor
            · intro _
              push_neg at h2
              exact ⟨xv, yv, rfl, rfl, not_lt.mp h1, h2.1, h2.2.1,
                     h2.2.2.1, h2.2.2.2⟩
            · intro _
              rfl

/-- C3 witness: the refinement theorem applied at the default threshold
0.7 on a concrete frame, template and correlation oracle. -/
theorem template_matcher_first_max_sweep_witness :
    0 < (7 : ℚ)/10 ∧
    detectWithTemplateMatching 1920 1080 32 32 constSurface (7/10) =
      templateMatcherSpec 1920 1080 32 32 constSurface (7/10) := by
  have h : 0 < (7 : ℚ)/10 := by norm_num
  exact ⟨h, template_matcher_first_max_sweep 1920 1080 32 32 constSurface
    (7/10) h⟩

/-- C5 (confirmed): the retry wrapper short-circuits on the first attempt
with both coordinates present, returning that attempt's result after one
sleep per preceding failed attempt, and returns the null result with
`maxRetries - 1` sleeps only when every attempt fails. -/
theorem detect_with_retry_short_circuits (res : ℕ → DetectResult)
    (maxRetries : ℕ) :
    (∀ k, k < maxRetries → detectSuccess (res k) = true →
      (∀ j, j < k → detectSuccess (res j) = false) →
      detect_with_retry res maxRetries = (res k, k)) ∧
    ((∀ j, j < maxRetries → detectSuccess (res j) = false) →
      detect_with_retry res maxRetries =
        ((none, none, 0), maxRetries - 1)) := by
  constructor
  · intro k hk hs hf
    have h := retryLoop_first_success res maxRetries k hk hs hf maxRetries 0
      (by omega) (by omega)
    simpa [detect_with_retry] using h
  · intro hf
    have h := retryLoop_all_fail res maxRetries hf maxRetries 0 (by omega)
    simpa [detect_with_retry] using h

/-- C5 witness: with three attempts against a detector failing twice then
succeeding, the wrapper returns the success and sleeps exactly twice. -/
theorem detect_with_retry_short_circuits_witness :
    2 < 3 ∧ detectSuccess (flakyDetector 2) = true ∧
    detect_with_retry flakyDetector 3 = (flakyDetector 2, 2) := by
  refine ⟨by norm_num, rfl, ?_⟩
  exact (detect_with_retry_short_circuits flakyDetector 3).1 2 (by norm_num)
    rfl (fun j hj => by interval_cases j <;> rfl)

/-- C6 (counterexample): the frame handed to the OCR engine has not been
grayscaled, denoised, contrast-enhanced or binarized; the pipeline the
code runs is not the spec's required sequence. -/
theorem ocr_preprocessing_missing_steps :
    decide (ocrFramePipeline = specRequiredPipeline) = false ∧
    decide (ImageOp.cvtColorBGR2GRAY ∈ ocrFramePipeline) = false ∧
    decide (ImageOp.fastNlMeansDenoise ∈ ocrFramePipeline) = false ∧
    decide (ImageOp.claheEqualize ∈ ocrFramePipeline) = false ∧
    decide (ImageOp.otsuThreshold ∈ ocrFramePipeline) = false := by
  decide

/-- C6 (corrected): before invoking the OCR engine in uniform-text-block
mode (psm 6), the extractor only converts the frame from BGR to RGB; none
of the spec's grayscale, denoise, adaptive-equalization or binarization
steps are applied. -/
theorem ocr_preprocessing_actual :
    ocrFramePipeline = [ImageOp.cvtColorBGR2RGB] ∧ ocrPsmMode = 6 ∧
    specRequiredPipeline.all (fun op => decide (op ∉ ocrFramePipeline)) =
      true := by
  decide

/-- C7 (confirmed): a missing template path leaves construction successful
with no template held, and the resulting detector never consults the
template-matching oracle (OCR-only mode); a path whose file exists but
cannot be decoded makes construction fail. -/
theorem constructor_missing_vs_corrupt_template :
    (∀ r, initIconDetector false r = Except.ok ⟨none⟩) ∧
    (∀ dims, initIconDetector true (some dims) = Except.ok ⟨some dims⟩) ∧
    initIconDetector true none =
      Except.error ("Could not load template") ∧
    (∀ τ fw fh m m' b tok u,
      detect_icon_position ⟨none⟩ τ fw fh m b tok u =
        detect_icon_position ⟨none⟩ τ fw fh m' b tok u) := by
  refine ⟨fun r => rfl, fun dims => rfl, rfl, ?_⟩
  intro τ fw fh m m' b tok u
  rfl

/-- C8 (counterexample): a missing OCR backend and a run that found no
matching token return the identical `(None, None, 0.0)` tuple, so the two
outcomes are not distinguishable in the returned value. -/
theorem ocr_unavailable_same_tuple_as_no_tokens :
    (detectWithOCR false [⟨"Notepad", 100, 200, 60, 20, 90⟩]).1 =
      (detectWithOCR true [⟨"Calculator", 400, 200, 80, 20, 90⟩]).1 ∧
    (detectWithOCR false [⟨"Notepad", 100, 200, 60, 20, 90⟩]).1 =
      (none, none, 0) := by
  exact ⟨rfl, rfl⟩

/-- C8 (corrected): a missing backend fails the attempt non-fatally with
the `(None, None, 0.0)` tuple the caller treats as zero candidates - the
same tuple the zero-matching-tokens outcome returns; the two paths differ
only in the emitted log event (error versus warning). -/
theorem ocr_unavailable_vs_no_tokens :
    (∀ tokens, detectWithOCR false tokens =
      ((none, none, 0), OCRLogEvent.errorTesseractNotFound)) ∧
    (∀ tokens, ocrCandidates tokens = [] →
      detectWithOCR true tokens =
        ((none, none, 0), OCRLogEvent.warnNoMatchingText)) ∧
    OCRLogEvent.errorTesseractNotFound ≠ OCRLogEvent.warnNoMatchingText := by
  refine ⟨fun tokens => rfl, ?_, by decide⟩
  intro tokens hc
  simp [detectWithOCR, hc]

/-- C8 witness: the zero-candidate branch applied to a concrete token list
containing no match. -/
theorem ocr_unavailable_vs_no_tokens_witness :
    ocrCandidates [⟨"Calculator", 400, 200, 80, 20, 90⟩] = [] ∧
    detectWithOCR true [⟨"Calculator", 400, 200, 80, 20, 90⟩] =
      ((none, none, 0), OCRLogEvent.warnNoMatchingText) := by
  have h : ocrCandidates [⟨"Calculator", 400, 200, 80, 20, 90⟩] = [] := rfl
  exact ⟨h, ocr_unavailable_vs_no_tokens.2.1 _ h⟩

/-- C9 (confirmed): with surface maxima at most 1 and raw OCR confidences
in [0, 100], every reported score stays in [0, 1]: the template path's
confidence is never negative (strict improvement from 0.0) and never above
1; similarities, combined scores and the capped OCR confidence all lie in
[0, 1]. -/
theorem detector_scores_in_unit_interval (fw fh tw th : ℕ)
    (m : ℚ → ScaleMatch) (τ : ℚ) (backendAvailable : Bool)
    (tokens : List OCRToken)
    (hm : ∀ s, (m s).maxVal ≤ 1)
    (htok : ∀ t ∈ tokens, 0 ≤ t.conf ∧ t.conf ≤ 100) :
    (0 ≤ (detectWithTemplateMatching fw fh tw th m τ).2.2 ∧
      (detectWithTemplateMatching fw fh tw th m τ).2.2 ≤ 1) ∧
    (∀ text, 0 ≤ calculateSimilarityToNotepad text ∧
      calculateSimilarityToNotepad text ≤ 1) ∧
    (∀ c ∈ ocrCandidates tokens,
      0 ≤ c.similarity ∧ c.similarity ≤ 1 ∧
      0 ≤ c.combinedScore ∧ c.combinedScore ≤ 1) ∧
    (0 ≤ ((detectWithOCR backendAvailable tokens).1).2.2 ∧
      ((detectWithOCR backendAvailable tokens).1).2.2 ≤ 1) := by
  have hcand : ∀ c ∈ ocrCandidates tokens,
      0 ≤ c.similarity ∧ c.similarity ≤ 1 ∧
      0 ≤ c.combinedScore ∧ c.combinedScore ≤ 1 := by
    intro c hc
    rw [ocrCandidates, List.mem_filterMap] at hc
    obtain ⟨t, ht, hft⟩ := hc
    by_cases h1 : pyStripString t.text = ""
    · simp [h1] at hft
    · by_cases h2 : (mkCandidate t).similarity > 0
      · simp [h1, h2] at hft
        subst hft
        obtain ⟨hc0, hc100⟩ := htok t ht
        have hs0 : 0 ≤ (mkCandidate t).similarity := by
          rw [mkCandidate_similarity]
          exact similarity_nonneg _
        have hs1 : (mkCandidate t).similarity ≤ 1 := by
          rw [mkCandidate_similarity]
          exact similarity_le_one _
        refine ⟨hs0, hs1, ?_, ?_⟩
        · rw [mkCandidate_combinedScore]
          nlinarith
        · rw [mkCandidate_combinedScore]
          nlinarith
      · simp [h1, h2] at hft
  refine ⟨⟨?_, ?_⟩,
    fun text => ⟨similarity_nonneg text, similarity_le_one text⟩, hcand, ?_⟩
  · rw [tm_conf_eq]
    exact tmFold_conf_nonneg fw fh tw th m tmScales ⟨none, 0, 1⟩ (le_refl 0)
  · rw [tm_conf_eq]
    exact tmFold_conf_le_one fw fh tw th m hm tmScales ⟨none, 0, 1⟩
      (by norm_num)
  · unfold detectWithOCR
    cases backendAvailable with
    | false =>
        constructor
        · exact le_refl 0
        · norm_num
    | true =>
        dsimp only
        cases hc : ocrCandidates tokens with
        | nil =>
            constructor
            · exact le_refl 0
            · norm_num
        | cons c cs =>
            have hmem : cs.foldl (keepMax Candidate.combinedScore) c ∈
                ocrCandidates tokens := by
              rw [hc]
              exact foldl_keepMax_mem Candidate.combinedScore c cs
            have hb := hcand _ hmem
            constructor
            · exact le_min hb.2.2.1 (by norm_num)
            · exact le_trans (min_le_right _ _) (by norm_num)

/-- C9 witness: the bounds at a concrete oracle, threshold and token
list. -/
theorem detector_scores_in_unit_interval_witness :
    (∀ s, (constSurface s).maxVal ≤ 1) ∧
    (∀ t ∈ witnessTokens, 0 ≤ t.conf ∧ t.conf ≤ 100) ∧
    ((0 ≤ (detectWithTemplateMatching 1920 1080 32 32 constSurface
        (7/10)).2.2 ∧
      (detectWithTemplateMatching 1920 1080 32 32 constSurface
        (7/10)).2.2 ≤ 1) ∧
     (∀ text, 0 ≤ calculateSimilarityToNotepad text ∧
       calculateSimilarityToNotepad text ≤ 1) ∧
     (∀ c ∈ ocrCandidates witnessTokens,
       0 ≤ c.similarity ∧ c.similarity ≤ 1 ∧
       0 ≤ c.combinedScore ∧ c.combinedScore ≤ 1) ∧
     (0 ≤ ((detectWithOCR true witnessTokens).1).2.2 ∧
       ((detectWithOCR true witnessTokens).1).2.2 ≤ 1)) := by
  have hm : ∀ s, (constSurface s).maxVal ≤ 1 := fun _ => by norm_num [constSurface]
  have htok : ∀ t ∈ witnessTokens, 0 ≤ t.conf ∧ t.conf ≤ 100 := by
    intro t ht
    simp only [witnessTokens, List.mem_singleton] at ht
    subst ht
    constructor <;> norm_num
  exact ⟨hm, htok, detector_scores_in_unit_interval 1920 1080 32 32
    constSurface (7/10) true witnessTokens hm htok⟩

/-- C10 (confirmed): the 0.1 demotion fires only when the characters after
"notepad" contain an alphanumeric character; a token that is "notepad"
followed solely by non-alphanumeric characters falls through to the
word-boundary containment branch and scores 0.5, while "notepad2" is
demoted to 0.1. -/
theorem demotion_requires_alnum_extra :
    (∀ text, notepadChars.isPrefixOf (pyNormalize text) = true →
      (pyNormalize text).length > notepadChars.length →
      (∀ c ∈ (pyNormalize text).drop notepadChars.length,
        c.isAlphanum = false) →
      calculateSimilarityToNotepad text = 1/2) ∧
    (∀ text c, notepadChars.isPrefixOf (pyNormalize text) = true →
      (pyNormalize text).length > notepadChars.length →
      c ∈ (pyNormalize text).drop notepadChars.length →
      c.isAlphanum = true →
      calculateSimilarityToNotepad text = 1/10) ∧
    calculateSimilarityToNotepad ("notepad++") = 1/2 ∧
    calculateSimilarityToNotepad ("notepad:") = 1/2 ∧
    calculateSimilarityToNotepad ("notepad2") = 1/10 :=
  ⟨similarity_prefix_nonalnum_extra,
   fun text c hp hl hc ha => similarity_prefix_alnum_extra text hp hl c hc ha,
   rfl, rfl, rfl⟩

/-- C10 witness: the fall-through branch applied at the concrete token
"notepad++". -/
theorem demotion_requires_alnum_extra_witness :
    notepadChars.isPrefixOf (pyNormalize ("notepad++")) = true ∧
    (pyNormalize ("notepad++")).length > notepadChars.length ∧
    calculateSimilarityToNotepad ("notepad++") = 1/2 := by
  have h1 : notepadChars.isPrefixOf (pyNormalize ("notepad++")) = true := by
    decide
  have h2 : (pyNormalize ("notepad++")).length > notepadChars.length := by
    decide
  have h3 : ∀ c ∈ (pyNormalize ("notepad++")).drop notepadChars.length,
      c.isAlphanum = false := by decide
  exact ⟨h1, h2, demotion_requires_alnum_extra.1 ("notepad++") h1 h2 h3⟩
